import Mathlib

/-
Verification of `torch/fx/experimental/meta_tracer.py`: a shallow embedding
of the metadata-propagating FX tracer and proofs about its behaviour.

The Python module is single-threaded and uses exceptions; we embed it with
explicit `Except Exc` results and explicit state passing.  Python object
identity is modelled by equality of the embedded values.
-/

set_option autoImplicit false
set_option maxHeartbeats 1000000

namespace MT

/-- Exceptions, split the way the handler in `MetaTracer.create_proxy`
splits them: `assertionError` models Python `AssertionError` (the only class
caught at line 111 of the source), `otherError` models every other exception
class (`TypeError`, `RuntimeError`, `IndexError`, `AttributeError`, ...). -/
inductive Exc where
  | assertionError (msg : String)
  | otherError (msg : String)
deriving DecidableEq, Repr

/-- Python values flowing through the tracer, as far as the module inspects
them: `none` is Python `None`; `int`/`str` are ordinary constants; `list` is
a container that `torch.fx.node.map_aggregate` recurses into; `meta` is a
meta tensor carrying only its shape (the `tensor_meta` descriptor);
`proxyOther ty` is a `torch.fx.Proxy` instance whose class (printed as `ty`)
is not `MetaProxy`; `metaProxy slot` is a `MetaProxy` whose `_tensor_meta`
attribute is absent (`slot = none`) or holds the given value
(`slot = some v`, where `some Val.none` means the attribute is literally
`None`). -/
inductive Val where
  | none
  | int (n : Int)
  | str (s : String)
  | list (vs : List Val)
  | meta (sizes : List Nat)
  | proxyOther (ty : String)
  | metaProxy (slot : Option Val)

/-- `isinstance(v, torch.fx.Proxy)`: true exactly for the two proxy
constructors of `Val`. -/
def isProxy : Val → Bool
  | .proxyOther _ => true
  | .metaProxy _ => true
  | _ => false

/-- `proxys_to_metas` (source lines 65-70): a proxy must be a `MetaProxy`
with `_tensor_meta` present, in which case that metadata is returned; a
non-proxy value is returned unchanged. -/
def proxys_to_metas : Val → Except Exc Val
  | .proxyOther ty => .error (.assertionError ("Expected MetaProxy but got " ++ ty))
  | .metaProxy Option.none =>
      .error (.assertionError "MetaProxy does not have an associated meta")
  | .metaProxy (some m) => .ok m
  | v => .ok v

mutual

/-- `torch.fx.node.map_aggregate`: applies `f` to every non-container leaf,
rebuilding containers, propagating the first exception raised. -/
def mapAggregate (f : Val → Except Exc Val) : Val → Except Exc Val
  | .list vs =>
      match mapAggregateList f vs with
      | .ok vs' => .ok (.list vs')
      | .error e => .error e
  | v => f v

/-- `map_aggregate` over the elements of a container, left to right. -/
def mapAggregateList (f : Val → Except Exc Val) : List Val → Except Exc (List Val)
  | [] => .ok []
  | v :: vs =>
      match mapAggregate f v with
      | .error e => .error e
      | .ok v' =>
          match mapAggregateList f vs with
          | .error e => .error e
          | .ok vs' => .ok (v' :: vs')

end

/-- A graph node created through `tracer.create_proxy`, recording the kind,
the target and the arguments.  The surrounding graph is modelled as the list
of nodes created so far (a node's id is its index in that list). -/
inductive NodeSpec where
  | callFunction (fn : String) (args : List Val) (kwargs : List (String × Val))
  | callMethod (m : String) (args : List Val) (kwargs : List (String × Val))

/-- Result of a `MetaProxy` method such as `size`/`dim`: either a concrete
value returned directly (no graph node created), or a fresh proxy for a
newly created symbolic node, or an exception escaping the method. -/
inductive MethodRet where
  | val (v : Val)
  | node (spec : NodeSpec)
  | err (e : Exc)

/-- `MetaProxy.install_tensor_meta` (source line 26-27): stores the value in
the `_tensor_meta` slot, unconditionally. -/
def install_tensor_meta (tensor_meta : Val) : Option Val := some tensor_meta

/-- Python truthiness of the `dim` argument (`[dim] if dim else []`):
`None` and `0` are falsy, every other integer is truthy. -/
def dimTruthy : Option Int → Bool
  | Option.none => false
  | some d => d != 0

/-- Index normalisation of `torch.Size.__getitem__`-style lookup used by
`tensor_meta.size(d)`: negative indices count from the end; out of range is
an `IndexError`. -/
def normIdx (len : Nat) (d : Int) : Option Nat :=
  let i := if d < 0 then d + (len : Int) else d
  if 0 ≤ i ∧ i < (len : Int) then some i.toNat else Option.none

namespace MetaProxy

/-- `MetaProxy.size` (source lines 29-32).  `self` is the proxy object
itself (used as argument of the fallback symbolic node), `slot` its
`_tensor_meta` attribute, `dim` the optional argument.  When metadata is
present and not `None`, the call is answered from the metadata
(`self._tensor_meta.size(*[dim] if dim else [])` — note the truthiness
test); otherwise a symbolic `call_method` node is created
(`(self, dim) if dim else (self,)`).  A `_tensor_meta` that is neither
`None` nor a meta tensor has no `size` method: `AttributeError`. -/
def size (self : Val) (slot : Option Val) (dim : Option Int) : MethodRet :=
  match slot with
  | some (Val.meta sizes) =>
      if dimTruthy dim then
        match normIdx sizes.length (dim.getD 0) with
        | some i => .val (.int (sizes.getD i 0))
        | Option.none => .err (.otherError "IndexError")
      else .val (.list (sizes.map fun n => .int (n : Int)))
  | some Val.none =>
      .node (.callMethod "size"
        (if dimTruthy dim then [self, .int (dim.getD 0)] else [self]) [])
  | Option.none =>
      .node (.callMethod "size"
        (if dimTruthy dim then [self, .int (dim.getD 0)] else [self]) [])
  | some _ => .err (.otherError "AttributeError")

/-- `MetaProxy.dim` (source lines 34-37): same metadata-shortcut pattern as
`size`, without arguments. -/
def dim (self : Val) (slot : Option Val) : MethodRet :=
  match slot with
  | some (Val.meta sizes) => .val (.int (sizes.length : Int))
  | some Val.none => .node (.callMethod "dim" [self] [])
  | Option.none => .node (.callMethod "dim" [self] [])
  | some _ => .err (.otherError "AttributeError")

end MetaProxy

/-! ### Constructor wrappers (`gen_constructor_wrapper`, source lines 8-23) -/

mutual

/-- The proxy left in the wrapper's `proxy` cell after
`map_aggregate(v, check_has_proxy)`: the traversal visits leaves left to
right and each proxy found overwrites the cell, so the result is the last
proxy occurring in `v` (or `none`). -/
def lastProxy : Val → Option Val
  | .list vs => lastProxyList vs
  | v => if isProxy v then some v else Option.none

/-- `lastProxy` over the elements of a container: the last element holding a
proxy wins. -/
def lastProxyList : List Val → Option Val
  | [] => Option.none
  | v :: vs =>
      match lastProxyList vs with
      | some q => some q
      | Option.none => lastProxy v

end

mutual

/-- No proxy occurs anywhere inside `v` (recursively through containers). -/
def noProxyIn : Val → Bool
  | .list vs => noProxyInList vs
  | v => !isProxy v

/-- `noProxyIn` over the elements of a container. -/
def noProxyInList : List Val → Bool
  | [] => true
  | v :: vs => noProxyIn v && noProxyInList vs

end

/-- `q` occurs inside `v`: either `v` itself, or inside one of the elements
of a container. -/
inductive OccursIn (q : Val) : Val → Prop
  | refl : OccursIn q q
  | inList {vs : List Val} {v : Val} : v ∈ vs → OccursIn q v → OccursIn q (.list vs)

/-- `q` occurs inside one of the values of `vs`. -/
def OccursInList (q : Val) (vs : List Val) : Prop := ∃ v ∈ vs, OccursIn q v

/-- Result of one invocation of a generated constructor wrapper:
`eager r` means the wrapper called the original target and returned its
result `r`, creating no graph node; `symbolic p target args kwargs` means
the wrapper returned `p.tracer.create_proxy('call_function', target, args,
kwargs)` — a fresh symbolic node — without calling the original target. -/
inductive WrapperResult where
  | eager (ret : Val)
  | symbolic (viaProxy : Val) (target : String) (args : List Val)
      (kwargs : List (String × Val))

/-- The wrapper produced by `gen_constructor_wrapper(target)`, applied to
`args`/`kwargs`.  `origEval` gives the behaviour of the original target on
concrete arguments.  `check_has_proxy` is mapped over `args` first and
`kwargs` second, so a proxy found in `kwargs` overwrites one found in
`args`. -/
def wrapperRun (origEval : List Val → List (String × Val) → Val) (target : String)
    (args : List Val) (kwargs : List (String × Val)) : WrapperResult :=
  let proxy : Option Val :=
    match lastProxyList (kwargs.map Prod.snd) with
    | some q => some q
    | Option.none => lastProxyList args
  match proxy with
  | some q => .symbolic q target args kwargs
  | Option.none => .eager (origEval args kwargs)

/-! ### `MetaTracer.create_proxy` (source lines 77-114) -/

/-- Node kinds of the underlying FX tracer. -/
inductive Kind where
  | placeholder
  | call_function
  | call_method
  | call_module
  | get_attr
  | output
deriving DecidableEq

/-- The kind's name as interpolated into the `Unsupported node kind`
assertion message. -/
def kindName : Kind → String
  | .placeholder => "placeholder"
  | .call_function => "call_function"
  | .call_method => "call_method"
  | .call_module => "call_module"
  | .get_attr => "get_attr"
  | .output => "output"

/-- Behaviour of the external computations performed during metadata replay:
`callFn target metas kwmetas` is `target(*args_metas, **kwargs_metas)` for a
`call_function` node; `callMethod self target metas kwmetas` is
`getattr(args_metas[0], target)(*args_metas[1:], **kwargs_metas)`;
`origForward` is the recorded `self.orig_forward` for a `call_module` node.
Each may raise any exception. -/
structure Evaluator where
  callFn : String → List Val → List (String × Val) → Except Exc Val
  callMethod : Val → String → List Val → List (String × Val) → Except Exc Val
  origForward : List Val → List (String × Val) → Except Exc Val

/-- Tracer-scoped state read by `create_proxy`: the metadata input mapping
`meta_args` set by `trace`, the set `orig_fns` of patched original
constructor functions (identified here by name), and whether a
`call_module` interception has recorded `self.orig_forward`. -/
structure TracerState where
  meta_args : List (String × Val)
  orig_fns : List String
  hasOrigForward : Bool

/-- The in-place rewrite `kwargs['device'] = 'meta'` (source lines 84-91),
applied when the target is a patched constructor original and a `device`
keyword is present. -/
def deviceRewrite (st : TracerState) (target : String)
    (kwargs : List (String × Val)) : List (String × Val) :=
  if target ∈ st.orig_fns ∧ (kwargs.lookup "device").isSome then
    kwargs.map fun p => if p.1 = "device" then (p.1, Val.str "meta") else p
  else kwargs

/-- `map_aggregate(kwargs, f)`: a dict is a container, so `f` is applied to
each value (recursively). -/
def mapAggregateKw (f : Val → Except Exc Val) :
    List (String × Val) → Except Exc (List (String × Val))
  | [] => .ok []
  | (k, v) :: rest =>
      match mapAggregate f v with
      | .error e => .error e
      | .ok v' =>
          match mapAggregateKw f rest with
          | .error e => .error e
          | .ok rest' => .ok ((k, v') :: rest')

/-- The body of the `try` block of `create_proxy` (source lines 93-110):
extract metadata from the arguments, replay the operation on the metadata,
and produce the metadata to install on `rv` (`none` for the `placeholder`
branch, which returns `rv` without installing anything).  Any exception
escapes as the `.error` case. -/
def replay (ev : Evaluator) (st : TracerState) (kind : Kind) (target : String)
    (args : List Val) (kwargs : List (String × Val)) : Except Exc (Option Val) :=
  match mapAggregateList proxys_to_metas args with
  | .error e => .error e
  | .ok args_metas =>
      match mapAggregateKw proxys_to_metas kwargs with
      | .error e => .error e
      | .ok kwargs_metas =>
          match kind with
          | .call_function =>
              match ev.callFn target args_metas kwargs_metas with
              | .error e => .error e
              | .ok meta_out => .ok (some meta_out)
          | .call_method =>
              match args_metas with
              | [] => .error (.otherError "IndexError")
              | selfMeta :: rest =>
                  match ev.callMethod selfMeta target rest kwargs_metas with
                  | .error e => .error e
                  | .ok meta_out => .ok (some meta_out)
          | .call_module =>
              if st.hasOrigForward then
                match ev.origForward args_metas kwargs_metas with
                | .error e => .error e
                | .ok meta_out => .ok (some meta_out)
              else .error (.assertionError "hasattr(self, ..orig_forward..)")
          | .placeholder => .ok Option.none
          | k => .error (.assertionError ("Unsupported node kind " ++ kindName k))

/-- Observable outcome of one `MetaTracer.create_proxy` call: the
`_tensor_meta` slot of the returned proxy `rv` (`none` when no metadata was
installed), the warning emitted by the `except AssertionError` handler (if
any), and whether the call returned `rv` normally (`.ok ()`) or let an
exception propagate (`.error e`). -/
structure CPResult where
  rvMeta : Option Val
  warned : Option String
  outcome : Except Exc Unit

/-- `MetaTracer.create_proxy` (source lines 77-114).  `rv` is the fresh
`MetaProxy` built by `super().create_proxy` (its `_tensor_meta` is initially
absent).  A placeholder whose target is a key of `meta_args` gets that
mapped value installed directly and is returned at once.  Otherwise the
`device` kwarg is rewritten for patched constructor originals and a
metadata replay is attempted; an `AssertionError` during the replay is
caught and turned into a warning naming the target, any other exception
propagates. -/
def create_proxy (ev : Evaluator) (st : TracerState) (kind : Kind)
    (target : String) (args : List Val) (kwargs : List (String × Val)) : CPResult :=
  if kind = Kind.placeholder ∧ (st.meta_args.lookup target).isSome then
    { rvMeta := st.meta_args.lookup target, warned := Option.none, outcome := .ok () }
  else
    match replay ev st kind target args (deviceRewrite st target kwargs) with
    | .ok slot => { rvMeta := slot, warned := Option.none, outcome := .ok () }
    | .error (.assertionError m) =>
        { rvMeta := Option.none
          warned := some ("Could not compute metadata for target " ++ target ++ ": " ++ m)
          outcome := .ok () }
    | .error e => { rvMeta := Option.none, warned := Option.none, outcome := .error e }

/-! ### `MetaAttribute` (source lines 46-63)

Graph-node creation is modelled by appending a `NodeSpec` to the list of
nodes created so far; a node's id is its index in that list. -/

/-- A `MetaAttribute` proxy: the root proxy, the attribute name, and the
cached node id (`_node`, `None` until the `node` property is first read). -/
structure MetaAttribute where
  root : Val
  attr : String
  _node : Option Nat

/-- `MetaAttribute.__init__` (source lines 47-52): records root and
attribute, inherits the tracer from the root, sets `_node = None`. -/
def MetaAttribute.init (root : Val) (attr : String) : MetaAttribute :=
  { root := root, attr := attr, _node := Option.none }

/-- The `node` property (source lines 54-60): on first access creates a
`call_function(getattr, (root, attr), {})` node and caches its id;
afterwards returns the cached id.  Returns the id, the updated proxy and
the updated node log. -/
def MetaAttribute.nodeGet (a : MetaAttribute) (log : List NodeSpec) :
    Nat × MetaAttribute × List NodeSpec :=
  match a._node with
  | some nid => (nid, a, log)
  | Option.none =>
      (log.length, { a with _node := some log.length },
       log ++ [NodeSpec.callFunction "getattr" [a.root, Val.str a.attr] []])

/-- `MetaAttribute.__call__` (source lines 62-63): creates a
`call_method(attr, (root,) + args, kwargs)` node directly, never touching
the cached attribute node.  Returns the fresh node's id and the updated
log. -/
def MetaAttribute.callOp (a : MetaAttribute) (args : List Val)
    (kwargs : List (String × Val)) (log : List NodeSpec) : Nat × List NodeSpec :=
  (log.length, log ++ [NodeSpec.callMethod a.attr (a.root :: args) kwargs])

/-! ### `MetaTracer.trace` (source lines 147-164) -/

/-- Identity of a function object bound in the `torch` global namespace:
`base` is an ordinary function, `wrapper f` the wrapper produced by
`gen_constructor_wrapper` around `f`.  Identity comparison (`is`) is
equality of these values. -/
inductive Fn where
  | base (id : Nat)
  | wrapper (of : Fn)
deriving DecidableEq

/-- The fixed list `MetaTracer._TORCH_METHODS_TO_PATCH` (source line 75). -/
def TORCH_METHODS_TO_PATCH : List String :=
  ["arange", "zeros", "ones", "full_like", "eye"]

/-- A sequence of `setattr(torch, name, fn)` calls applied to the global
namespace `g`, in list order. -/
def installAll (ps : List (String × Fn)) (g : String → Fn) : String → Fn :=
  ps.foldl (fun acc p => fun n => if n = p.1 then p.2 else acc n) g

/-- `MetaTracer.trace` (source lines 147-164), as it acts on the `torch`
global namespace `g`.  `isDict` is `isinstance(meta_args, dict)`; when
false the assertion aborts before anything is patched.  Otherwise each name
of `TORCH_METHODS_TO_PATCH` is rebound to a wrapper around its current
binding, the underlying trace `body` runs against the patched namespace
(returning normally or raising), and the `finally` block rebinds every
patched name to the recorded original.  Returns the trace outcome and the
final global namespace. -/
def MetaTracer.trace (isDict : Bool) (g : String → Fn)
    (body : (String → Fn) → Except Exc Unit) :
    Except Exc Unit × (String → Fn) :=
  if isDict then
    let patched : List (String × Fn × Fn) :=
      TORCH_METHODS_TO_PATCH.map fun t => (t, Fn.wrapper (g t), g t)
    let g1 := installAll (patched.map fun p => (p.1, p.2.1)) g
    let res := body g1
    let g2 := installAll (patched.map fun p => (p.1, p.2.2)) g1
    (res, g2)
  else (.error (.assertionError "isinstance(meta_args, dict)"), g)

/-! ### `path_of_module` (source lines 120-142) -/

/-- Exceptions of the module-path-resolution path: `path_of_module` handles
`NameError` specially and lets everything else propagate. -/
inductive PExc where
  | nameError (msg : String)
  | otherExc (msg : String)
deriving DecidableEq

/-- A host module as far as this code inspects it: its class name and how
many parameters and buffers it owns. -/
structure ModuleM where
  className : String
  numParams : Nat
  numBuffers : Nat

/-- The candidate name `f"{mod_name}_{idx}"`. -/
def mkPath (modName : String) (idx : Nat) : String :=
  modName ++ "_" ++ toString idx

/-- The `while hasattr(self.root, path)` loop of
`_insert_module_as_submodule` (source lines 124-129), with explicit fuel
standing for the number of loop iterations still allowed (`none` = the fuel
ran out, i.e. the loop did not terminate within the bound).  The body sets
`path = f"{mod_name}_{idx}"` with the current `idx` and only then
increments `idx`. -/
def insertLoop (has : String → Bool) (modName : String) :
    Nat → String → Nat → Option String
  | 0, _, _ => Option.none
  | fuel + 1, path, idx =>
      if has path then insertLoop has modName fuel (mkPath modName idx) (idx + 1)
      else some path

/-- `MetaTracer._insert_module_as_submodule` (source lines 120-132): finds
a name `f"{mod_name}_{idx}"` not already an attribute of the root
(`has`), registers the module under it (`self.root.add_module(path, mod)`,
returned as the updated attribute set) and returns the name. -/
def insert_module_as_submodule (has : String → Bool) (modName : String)
    (fuel : Nat) : Option (String × (String → Bool)) :=
  match insertLoop has modName fuel (mkPath modName 0) 0 with
  | some p => some (p, fun n => if n = p then true else has n)
  | Option.none => Option.none

/-- `MetaTracer.path_of_module` (source lines 134-142).  `superRes` is the
outcome of `super().path_of_module(mod)`.  A `NameError` triggers the
stateless-module fallback when `allow_insert_stateless_mods` is set and the
module owns no parameters and no buffers; otherwise the original exception
is re-raised.  The outer `Option` is the `insertLoop` fuel bound. -/
def path_of_module (allow : Bool) (has : String → Bool) (fuel : Nat)
    (superRes : Except PExc String) (mod : ModuleM) :
    Option (Except PExc String) :=
  match superRes with
  | .ok p => some (.ok p)
  | .error (.nameError e) =>
      if allow = true ∧ mod.numParams = 0 ∧ mod.numBuffers = 0 then
        match insert_module_as_submodule has mod.className.toLower fuel with
        | some (p, _) => some (.ok p)
        | Option.none => Option.none
      else some (.error (.nameError e))
  | .error e => some (.error e)

/-! ### Sample concrete objects used by witnesses and counterexamples -/

/-- An evaluator whose external calls all succeed with `None`. -/
def evZero : Evaluator :=
  { callFn := fun _ _ _ => .ok Val.none
    callMethod := fun _ _ _ _ => .ok Val.none
    origForward := fun _ _ => .ok Val.none }

/-- An evaluator whose external calls all raise a non-assertion exception
(e.g. a `TypeError` from the replayed target). -/
def evBoom : Evaluator :=
  { callFn := fun _ _ _ => .error (.otherError "TypeError")
    callMethod := fun _ _ _ _ => .error (.otherError "TypeError")
    origForward := fun _ _ => .error (.otherError "TypeError") }

/-- A tracer state with one metadata input bound to the placeholder `x`. -/
def st1 : TracerState :=
  { meta_args := [("x", Val.meta [2, 3])], orig_fns := [], hasOrigForward := false }

/-! ### Theorems -/

/-- C1: a node-creation request of kind `placeholder` whose target is a key
of the metadata input mapping gets exactly the mapped value installed as
the returned proxy's `tensor_meta` (identity modelled as equality), emits
no warning, returns normally, and performs no metadata replay — the result
does not depend on the evaluator of external calls at all. -/
theorem create_proxy_placeholder_meta_args :
    ∀ (ev ev' : Evaluator) (st : TracerState) (target : String)
      (args : List Val) (kwargs : List (String × Val)) (m : Val),
      st.meta_args.lookup target = some m →
      create_proxy ev st .placeholder target args kwargs
          = { rvMeta := some m, warned := Option.none, outcome := .ok () }
      ∧ create_proxy ev st .placeholder target args kwargs
          = create_proxy ev' st .placeholder target args kwargs := by
  intro ev ev' st target args kwargs m h
  constructor
  · simp [create_proxy, h]
  · simp [create_proxy, h]

/-- Witness for C1 at the concrete state `st1`, placeholder `x` mapped to
the meta tensor of shape `[2, 3]`. -/
theorem create_proxy_placeholder_meta_args_witness :
    create_proxy evZero st1 .placeholder "x" [] []
        = { rvMeta := some (Val.meta [2, 3]), warned := Option.none, outcome := .ok () }
    ∧ create_proxy evZero st1 .placeholder "x" [] []
        = create_proxy evBoom st1 .placeholder "x" [] [] :=
  create_proxy_placeholder_meta_args evZero evBoom st1 "x" [] [] (Val.meta [2, 3]) rfl

/-- C2: whenever the metadata replay raises an assertion-kind error (from
whatever source: unsupported node kind, missing `orig_forward`, an input
proxy without metadata, or the replayed target itself), `create_proxy`
catches it, emits a warning naming the target and the failure reason,
returns the proxy normally and installs no metadata. -/
theorem create_proxy_assertion_caught :
    ∀ (ev : Evaluator) (st : TracerState) (kind : Kind) (target : String)
      (args : List Val) (kwargs : List (String × Val)) (m : String),
      ¬(kind = Kind.placeholder ∧ (st.meta_args.lookup target).isSome) →
      replay ev st kind target args (deviceRewrite st target kwargs)
          = .error (.assertionError m) →
      create_proxy ev st kind target args kwargs
          = { rvMeta := Option.none
              warned := some ("Could not compute metadata for target " ++ target ++ ": " ++ m)
              outcome := .ok () } := by
  intro ev st kind target args kwargs m hfast hrep
  rw [create_proxy, if_neg hfast, hrep]

/-- Witness for C2: an `output`-kind node, whose replay fails the
`assert kind in ..placeholder..` check. -/
theorem create_proxy_assertion_caught_witness :
    create_proxy evZero st1 .output "foo" [] []
        = { rvMeta := Option.none
            warned := some "Could not compute metadata for target foo: Unsupported node kind output"
            outcome := .ok () } :=
  create_proxy_assertion_caught evZero st1 .output "foo" [] []
    "Unsupported node kind output" (by simp) rfl

/-- C3 counterexample: the replay handler catches only `AssertionError`
(source line 111), so a replay failing with any other exception — here a
`TypeError` raised by the replayed `call_function` target — propagates out
of `create_proxy` instead of returning the proxy: tracing aborts. -/
theorem create_proxy_other_exception_cx :
    replay evBoom st1 .call_function "f" [] [] = .error (.otherError "TypeError")
    ∧ (create_proxy evBoom st1 .call_function "f" [] []).outcome
        = .error (.otherError "TypeError")
    ∧ (create_proxy evBoom st1 .call_function "f" [] []).outcome ≠ .ok () := by
  refine ⟨rfl, rfl, ?_⟩
  intro h
  rw [show (create_proxy evBoom st1 .call_function "f" [] []).outcome
        = Except.error (Exc.otherError "TypeError") from rfl] at h
  exact Except.noConfusion h

/-- C3 amended: `create_proxy` always returns the symbolic proxy `rv`
provided the metadata replay does not raise an exception of a
non-assertion kind; assertion-kind failures (and successful replays, and
the placeholder fast path) never abort tracing. -/
theorem create_proxy_returns_rv_on_assertion :
    ∀ (ev : Evaluator) (st : TracerState) (kind : Kind) (target : String)
      (args : List Val) (kwargs : List (String × Val)),
      (∀ m, replay ev st kind target args (deviceRewrite st target kwargs)
          ≠ .error (.otherError m)) →
      (create_proxy ev st kind target args kwargs).outcome = .ok () := by
  intro ev st kind target args kwargs h
  rw [create_proxy]
  by_cases hfast : kind = Kind.placeholder ∧ (st.meta_args.lookup target).isSome
  · rw [if_pos hfast]
  · rw [if_neg hfast]
    rcases hrep : replay ev st kind target args (deviceRewrite st target kwargs) with e | v
    · cases e with
      | assertionError m => rfl
      | otherError m => exact absurd hrep (h m)
    · rfl

/-- Witness for C3 amended: a `call_function` node whose argument is a bare
`torch.fx.Proxy`, so the replay fails with the `Expected MetaProxy` assertion
— the call still returns the proxy normally. -/
theorem create_proxy_returns_rv_on_assertion_witness :
    (create_proxy evZero st1 .call_function "f" [Val.proxyOther "Proxy"] []).outcome
        = .ok () :=
  create_proxy_returns_rv_on_assertion evZero st1 .call_function "f"
    [Val.proxyOther "Proxy"] [] (by intro m h; simp [replay, mapAggregateList,
      mapAggregate, proxys_to_metas, mapAggregateKw, deviceRewrite, st1] at h)

/-- C8: on a `MetaAttribute`, invoking it as a method creates the single
`call_method(attr, (root,) + args, kwargs)` node and no `getattr` node;
reading the `node` property creates `call_function(getattr, (root, attr),
{})` on the first access only and returns the cached node on every later
access. -/
theorem metaAttribute_lazy_spec :
    ∀ (root : Val) (attr : String) (args : List Val)
      (kwargs : List (String × Val)) (log : List NodeSpec),
      (MetaAttribute.init root attr).callOp args kwargs log
          = (log.length, log ++ [NodeSpec.callMethod attr (root :: args) kwargs])
      ∧ ((MetaAttribute.init root attr).nodeGet log).1 = log.length
      ∧ ((MetaAttribute.init root attr).nodeGet log).2.2
          = log ++ [NodeSpec.callFunction "getattr" [root, Val.str attr] []]
      ∧ (((MetaAttribute.init root attr).nodeGet log).2.1.nodeGet
            (((MetaAttribute.init root attr).nodeGet log).2.2)
          = (log.length, ((MetaAttribute.init root attr).nodeGet log).2.1,
             ((MetaAttribute.init root attr).nodeGet log).2.2)) := by
  intro root attr args kwargs log
  exact ⟨rfl, rfl, rfl, rfl⟩

/-- C9: `proxys_to_metas` passes every non-proxy value through unchanged;
a bare proxy fails the `Expected MetaProxy` assertion naming the violating
type; a `MetaProxy` without `_tensor_meta` fails the missing-meta
assertion; a `MetaProxy` with metadata yields exactly that metadata. -/
theorem proxys_to_metas_spec :
    (∀ v : Val, isProxy v = false → proxys_to_metas v = .ok v)
    ∧ (∀ ty, proxys_to_metas (.proxyOther ty)
        = .error (.assertionError ("Expected MetaProxy but got " ++ ty)))
    ∧ proxys_to_metas (.metaProxy Option.none)
        = .error (.assertionError "MetaProxy does not have an associated meta")
    ∧ (∀ m, proxys_to_metas (.metaProxy (some m)) = .ok m) := by
  refine ⟨?_, fun _ => rfl, rfl, fun _ => rfl⟩
  intro v h
  cases v with
  | proxyOther ty => simp [isProxy] at h
  | metaProxy s => simp [isProxy] at h
  | none => rfl
  | int n => rfl
  | str s => rfl
  | list vs => rfl
  | meta s => rfl

/-- Witness for C9 at an integer and a string input. -/
theorem proxys_to_metas_spec_witness :
    proxys_to_metas (Val.int 5) = .ok (Val.int 5)
    ∧ proxys_to_metas (Val.str "a") = .ok (Val.str "a") :=
  ⟨proxys_to_metas_spec.1 (Val.int 5) rfl, proxys_to_metas_spec.1 (Val.str "a") rfl⟩

/-- C10: installing `None` as a proxy's metadata behaves, for the `size`
and `dim` shortcuts, exactly like having no metadata installed: both take
the symbolic fallback path and create a `call_method` node, because the
shortcut requires `_tensor_meta is not None`. -/
theorem install_none_meta_fallback :
    ∀ (self : Val) (d : Option Int),
      MetaProxy.size self (install_tensor_meta Val.none) d
          = MetaProxy.size self Option.none d
      ∧ MetaProxy.size self Option.none d
          = .node (.callMethod "size"
              (if dimTruthy d then [self, .int (d.getD 0)] else [self]) [])
      ∧ MetaProxy.dim self (install_tensor_meta Val.none)
          = MetaProxy.dim self Option.none
      ∧ MetaProxy.dim self Option.none = .node (.callMethod "dim" [self] []) := by
  intro self d
  exact ⟨rfl, rfl, rfl, rfl⟩

/-- C6 counterexample: `size(0)` on a proxy with metadata of shape `[5, 7]`
returns the full size `[5, 7]`, not the size `5` of dimension `0` — the
source tests `[dim] if dim else []`, and `0` is falsy in Python, so
`dim = 0` is treated as if no dimension had been given. -/
theorem size_dim_zero_cx :
    MetaProxy.size (Val.metaProxy (some (.meta [5, 7]))) (some (.meta [5, 7])) (some 0)
        = .val (.list [.int 5, .int 7])
    ∧ MetaProxy.size (Val.metaProxy (some (.meta [5, 7]))) (some (.meta [5, 7])) (some 0)
        ≠ .val (.int 5) := by
  refine ⟨rfl, ?_⟩
  intro h
  rw [show MetaProxy.size (Val.metaProxy (some (.meta [5, 7])))
        (some (.meta [5, 7])) (some 0)
      = MethodRet.val (.list [.int 5, .int 7]) from rfl] at h
  simp at h

/-- C6 amended: with metadata installed, `size(dim)` answers the
per-dimension query from the metadata for every *nonzero* `dim` (in range,
possibly negative), and returns the metadata's full size when `dim` is
absent *or equal to `0`* (Python truthiness), in both cases creating no
graph node; without metadata, a symbolic `call_method` node for `size` is
created, carrying `dim` exactly when `dim` is nonzero. -/
theorem size_spec_amended :
    ∀ (self : Val) (sizes : List Nat) (dOpt : Option Int),
      (∀ d i, dOpt = some d → d ≠ 0 → normIdx sizes.length d = some i →
          MetaProxy.size self (some (.meta sizes)) dOpt = .val (.int (sizes.getD i 0)))
      ∧ (dimTruthy dOpt = false →
          MetaProxy.size self (some (.meta sizes)) dOpt
            = .val (.list (sizes.map fun n => .int (n : Int))))
      ∧ MetaProxy.size self Option.none dOpt
          = .node (.callMethod "size"
              (if dimTruthy dOpt then [self, .int (dOpt.getD 0)] else [self]) []) := by
  intro self sizes dOpt
  refine ⟨?_, ?_, rfl⟩
  · intro d i hd hdz hidx
    subst hd
    have ht : dimTruthy (some d) = true := by simp [dimTruthy, hdz]
    simp [MetaProxy.size, ht, hidx]
  · intro hf
    simp [MetaProxy.size, hf]

/-- Witness for C6 amended: metadata of shape `[4, 9]`, `dim = 1` answered
from the metadata; `dim` absent gives the full size; no metadata gives a
symbolic node. -/
theorem size_spec_amended_witness :
    MetaProxy.size Val.none (some (.meta [4, 9])) (some 1) = .val (.int 9)
    ∧ MetaProxy.size Val.none (some (.meta [4, 9])) Option.none
        = .val (.list [.int 4, .int 9])
    ∧ MetaProxy.size Val.none Option.none (some 1)
        = .node (.callMethod "size" [Val.none, .int 1] []) := by
  refine ⟨?_, ?_, ?_⟩
  · exact (size_spec_amended Val.none [4, 9] (some 1)).1 1 1 rfl (by decide) rfl
  · exact (size_spec_amended Val.none [4, 9] Option.none).2.1 rfl
  · exact (size_spec_amended Val.none [4, 9] (some 1)).2.2

/-- C4: after `MetaTracer.trace` — whether the underlying trace returns
normally or raises, and whether or not the `meta_args` precondition held —
every name of `_TORCH_METHODS_TO_PATCH` is bound in the `torch` namespace
to exactly the function it was bound to before the call. -/
theorem trace_restores_patched_globals :
    ∀ (isDict : Bool) (g : String → Fn) (body : (String → Fn) → Except Exc Unit)
      (name : String), name ∈ TORCH_METHODS_TO_PATCH →
      (MetaTracer.trace isDict g body).2 name = g name := by
  intro isDict g body name h
  cases isDict with
  | false => rfl
  | true =>
      simp only [TORCH_METHODS_TO_PATCH, List.mem_cons, List.not_mem_nil, or_false] at h
      rcases h with rfl | rfl | rfl | rfl | rfl <;> rfl

/-- Witness for C4: a trace whose body raises a `RuntimeError` mid-way
still leaves `torch.zeros` bound to the pre-trace original. -/
theorem trace_restores_patched_globals_witness :
    (MetaTracer.trace true (fun _ => Fn.base 0)
        (fun _ => .error (.otherError "RuntimeError"))).2 "zeros" = Fn.base 0 :=
  trace_restores_patched_globals true (fun _ => Fn.base 0)
    (fun _ => .error (.otherError "RuntimeError")) "zeros" (by simp [TORCH_METHODS_TO_PATCH])

/-! ### Helper lemmas relating `lastProxy` and `noProxyIn` -/

theorem noProxyInList_append (as bs : List Val) :
    noProxyInList (as ++ bs) = (noProxyInList as && noProxyInList bs) := by
  induction as with
  | nil => simp [noProxyInList]
  | cons a as ih => simp [noProxyInList, ih, Bool.and_assoc]

mutual

theorem lastProxy_eq_none : ∀ v : Val, noProxyIn v = true → lastProxy v = Option.none
  | .list vs, h => lastProxyList_eq_none vs h
  | .none, _ => rfl
  | .int _, _ => rfl
  | .str _, _ => rfl
  | .meta _, _ => rfl
  | .proxyOther _, h => by exact Bool.noConfusion h
  | .metaProxy _, h => by exact Bool.noConfusion h

theorem lastProxyList_eq_none : ∀ vs : List Val, noProxyInList vs = true →
    lastProxyList vs = Option.none
  | [], _ => rfl
  | v :: vs, h => by
      have h1 : noProxyIn v = true := by
        have h' : (noProxyIn v && noProxyInList vs) = true := h
        exact (Bool.and_eq_true _ _ |>.mp h').1
      have h2 : noProxyInList vs = true := by
        have h' : (noProxyIn v && noProxyInList vs) = true := h
        exact (Bool.and_eq_true _ _ |>.mp h').2
      show (match lastProxyList vs with
            | some q => some q
            | Option.none => lastProxy v) = Option.none
      rw [lastProxyList_eq_none vs h2, lastProxy_eq_none v h1]

end

mutual

theorem noProxyIn_of_lastProxy_none : ∀ v : Val, lastProxy v = Option.none →
    noProxyIn v = true
  | .list vs, h => noProxyInList_of_lastProxyList_none vs h
  | .none, _ => rfl
  | .int _, _ => rfl
  | .str _, _ => rfl
  | .meta _, _ => rfl
  | .proxyOther ty, h => by
      rw [show lastProxy (.proxyOther ty) = some (.proxyOther ty) from rfl] at h
      exact Option.noConfusion h
  | .metaProxy s, h => by
      rw [show lastProxy (.metaProxy s) = some (.metaProxy s) from rfl] at h
      exact Option.noConfusion h

theorem noProxyInList_of_lastProxyList_none : ∀ vs : List Val,
    lastProxyList vs = Option.none → noProxyInList vs = true
  | [], _ => rfl
  | v :: vs, h => by
      rcases htail : lastProxyList vs with _ | q
      · rw [show lastProxyList (v :: vs)
              = (match lastProxyList vs with
                 | some q => some q
                 | Option.none => lastProxy v) from rfl, htail] at h
        show (noProxyIn v && noProxyInList vs) = true
        rw [noProxyIn_of_lastProxy_none v h,
            noProxyInList_of_lastProxyList_none vs htail]
        rfl
      · exfalso
        rw [show lastProxyList (v :: vs)
              = (match lastProxyList vs with
                 | some q => some q
                 | Option.none => lastProxy v) from rfl, htail] at h
        exact Option.noConfusion h

end

mutual

theorem lastProxy_occurs : ∀ (v q : Val), lastProxy v = some q →
    isProxy q = true ∧ OccursIn q v
  | .list vs, q, h => by
      obtain ⟨hq, v', hv', hocc⟩ := lastProxyList_occurs vs q h
      exact ⟨hq, OccursIn.inList hv' hocc⟩
  | .none, q, h => by
      rw [show lastProxy .none = Option.none from rfl] at h
      exact Option.noConfusion h
  | .int n, q, h => by
      rw [show lastProxy (.int n) = Option.none from rfl] at h
      exact Option.noConfusion h
  | .str s, q, h => by
      rw [show lastProxy (.str s) = Option.none from rfl] at h
      exact Option.noConfusion h
  | .meta s, q, h => by
      rw [show lastProxy (.meta s) = Option.none from rfl] at h
      exact Option.noConfusion h
  | .proxyOther ty, q, h => by
      rw [show lastProxy (.proxyOther ty) = some (.proxyOther ty) from rfl] at h
      obtain rfl := Option.some.inj h
      exact ⟨rfl, OccursIn.refl⟩
  | .metaProxy s, q, h => by
      rw [show lastProxy (.metaProxy s) = some (.metaProxy s) from rfl] at h
      obtain rfl := Option.some.inj h
      exact ⟨rfl, OccursIn.refl⟩

theorem lastProxyList_occurs : ∀ (vs : List Val) (q : Val),
    lastProxyList vs = some q → isProxy q = true ∧ OccursInList q vs
  | [], q, h => by exact Option.noConfusion h
  | v :: vs, q, h => by
      rw [show lastProxyList (v :: vs)
            = (match lastProxyList vs with
               | some q => some q
               | Option.none => lastProxy v) from rfl] at h
      rcases htail : lastProxyList vs with _ | q'
      · rw [htail] at h
        obtain ⟨hq, hocc⟩ := lastProxy_occurs v q h
        exact ⟨hq, v, List.mem_cons_self v vs, hocc⟩
      · rw [htail] at h
        obtain rfl := Option.some.inj h
        obtain ⟨hq, v', hv', hocc⟩ := lastProxyList_occurs vs q' htail
        exact ⟨hq, v', List.mem_cons_of_mem v hv', hocc⟩

end

/-- C5: a generated constructor wrapper with no proxy among its (recursively
inspected) positional and keyword arguments returns exactly the original
target's result, creating no graph node; with at least one proxy among
them, it never calls the original target and returns a fresh symbolic
`call_function` proxy created by the tracer of a proxy occurring in the
arguments. -/
theorem gen_constructor_wrapper_spec :
    ∀ (origEval : List Val → List (String × Val) → Val) (target : String)
      (args : List Val) (kwargs : List (String × Val)),
      (noProxyInList (args ++ kwargs.map Prod.snd) = true →
        wrapperRun origEval target args kwargs = .eager (origEval args kwargs))
      ∧ (noProxyInList (args ++ kwargs.map Prod.snd) = false →
        ∃ q, wrapperRun origEval target args kwargs = .symbolic q target args kwargs
          ∧ isProxy q = true
          ∧ (OccursInList q args ∨ OccursInList q (kwargs.map Prod.snd))) := by
  intro origEval target args kwargs
  constructor
  · intro h
    rw [noProxyInList_append, Bool.and_eq_true] at h
    simp [wrapperRun, lastProxyList_eq_none _ h.1, lastProxyList_eq_none _ h.2]
  · intro h
    rcases hkw : lastProxyList (kwargs.map Prod.snd) with _ | q
    · have hkwT : noProxyInList (kwargs.map Prod.snd) = true :=
        noProxyInList_of_lastProxyList_none _ hkw
      have hargsF : noProxyInList args = false := by
        rw [noProxyInList_append] at h
        cases hA : noProxyInList args
        · rfl
        · rw [hA, hkwT] at h
          exact Bool.noConfusion h
      rcases hargs : lastProxyList args with _ | q
      · exact absurd (noProxyInList_of_lastProxyList_none _ hargs) (by simp [hargsF])
      · obtain ⟨hq, hocc⟩ := lastProxyList_occurs args q hargs
        exact ⟨q, by simp [wrapperRun, hkw, hargs], hq, Or.inl hocc⟩
    · obtain ⟨hq, hocc⟩ := lastProxyList_occurs _ q hkw
      exact ⟨q, by simp [wrapperRun, hkw], hq, Or.inr hocc⟩

/-- Witness for C5: a purely concrete call passes through to the original
target; a call with a proxy argument produces a symbolic node. -/
theorem gen_constructor_wrapper_spec_witness :
    wrapperRun (fun _ _ => Val.int 7) "zeros" [Val.int 3] [] = .eager (Val.int 7)
    ∧ ∃ q, wrapperRun (fun _ _ => Val.int 7) "zeros" [Val.metaProxy Option.none] []
          = .symbolic q "zeros" [Val.metaProxy Option.none] []
        ∧ isProxy q = true
        ∧ (OccursInList q [Val.metaProxy Option.none] ∨ OccursInList q []) := by
  constructor
  · exact (gen_constructor_wrapper_spec (fun _ _ => Val.int 7) "zeros"
      [Val.int 3] []).1 rfl
  · exact (gen_constructor_wrapper_spec (fun _ _ => Val.int 7) "zeros"
      [Val.metaProxy Option.none] []).2 rfl

/-! ### Helper lemmas for the submodule-insertion loop -/

theorem insertLoop_finds (has : String → Bool) (modName : String) (j : Nat)
    (hj : has (mkPath modName j) = false) :
    ∀ (fuel idx : Nat), 1 ≤ idx → idx ≤ j + 1 → j + 2 - idx ≤ fuel →
      ∃ p, insertLoop has modName fuel (mkPath modName (idx - 1)) idx = some p
        ∧ has p = false ∧ ∃ k, p = mkPath modName k := by
  intro fuel
  induction fuel with
  | zero => intro idx h1 h2 h3; omega
  | succ f ih =>
      intro idx h1 h2 h3
      cases hp : has (mkPath modName (idx - 1)) with
      | false =>
          refine ⟨mkPath modName (idx - 1), ?_, hp, idx - 1, rfl⟩
          simp [insertLoop, hp]
      | true =>
          have hne : idx - 1 ≠ j := by
            intro he
            rw [he, hj] at hp
            exact Bool.noConfusion hp
          have := ih (idx + 1) (by omega) (by omega) (by omega)
          simpa [insertLoop, hp, Nat.add_sub_cancel] using this

theorem insert_module_finds (has : String → Bool) (modName : String) (j fuel : Nat)
    (hj : has (mkPath modName j) = false) (hfuel : j + 2 ≤ fuel) :
    ∃ p has', insert_module_as_submodule has modName fuel = some (p, has')
      ∧ has p = false ∧ has' p = true ∧ ∃ k, p = mkPath modName k := by
  obtain ⟨f, rfl⟩ : ∃ f, fuel = f + 1 := ⟨fuel - 1, by omega⟩
  cases h0 : has (mkPath modName 0) with
  | false =>
      refine ⟨mkPath modName 0, fun n => if n = mkPath modName 0 then true else has n,
        ?_, h0, by simp, 0, rfl⟩
      simp [insert_module_as_submodule, insertLoop, h0]
  | true =>
      obtain ⟨p, hloop, hp, k, hk⟩ :=
        insertLoop_finds has modName j hj f 1 (le_refl 1) (by omega) (by omega)
      refine ⟨p, fun n => if n = p then true else has n, ?_, hp, by simp, k, hk⟩
      simp [insert_module_as_submodule, insertLoop, h0, hloop]

/-- C7: when `super().path_of_module` fails with a `NameError`, a module
owning no parameters and no buffers (with `allow_insert_stateless_mods`
enabled) is registered as a child of the root under a fresh
class-name-derived numerically suffixed name that collides with no
pre-existing attribute of the root, and that name is returned; when the
module owns any parameter or buffer, or the option is disabled, the
original failure is re-raised.  The hypotheses say that some suffix `j` is
free and that the loop-fuel bound covers it. -/
theorem path_of_module_spec :
    ∀ (allow : Bool) (has : String → Bool) (fuel : Nat) (e : String)
      (mod : ModuleM) (j : Nat),
      has (mkPath mod.className.toLower j) = false → j + 2 ≤ fuel →
      ((allow = true ∧ mod.numParams = 0 ∧ mod.numBuffers = 0) →
        ∃ p has', path_of_module allow has fuel (.error (.nameError e)) mod
              = some (.ok p)
          ∧ insert_module_as_submodule has mod.className.toLower fuel
              = some (p, has')
          ∧ has p = false ∧ has' p = true
          ∧ ∃ k, p = mkPath mod.className.toLower k)
      ∧ (¬(allow = true ∧ mod.numParams = 0 ∧ mod.numBuffers = 0) →
        path_of_module allow has fuel (.error (.nameError e)) mod
          = some (.error (.nameError e))) := by
  intro allow has fuel e mod j hj hfuel
  constructor
  · intro hc
    obtain ⟨p, has', hins, hp, hp', k, hk⟩ :=
      insert_module_finds has mod.className.toLower j fuel hj hfuel
    refine ⟨p, has', ?_, hins, hp, hp', k, hk⟩
    rw [path_of_module, if_pos hc, hins]
  · intro hc
    rw [path_of_module, if_neg hc]

/-- Witness for C7: a root with no attributes, a stateless module of class
`MyMod`, fuel `2`: the module is adopted under a fresh name; with
`allow_insert_stateless_mods` disabled the `NameError` is re-raised. -/
theorem path_of_module_spec_witness :
    (∃ p has', path_of_module true (fun _ => false) 2
          (.error (.nameError "module is not installed as a submodule")) ⟨"MyMod", 0, 0⟩
        = some (.ok p)
      ∧ insert_module_as_submodule (fun _ => false) (String.toLower "MyMod") 2
          = some (p, has')
      ∧ (fun _ => false : String → Bool) p = false ∧ has' p = true
      ∧ ∃ k, p = mkPath (String.toLower "MyMod") k)
    ∧ path_of_module false (fun _ => false) 2
        (.error (.nameError "module is not installed as a submodule")) ⟨"MyMod", 0, 0⟩
      = some (.error (.nameError "module is not installed as a submodule")) := by
  constructor
  · exact (path_of_module_spec true (fun _ => false) 2
      "module is not installed as a submodule" ⟨"MyMod", 0, 0⟩ 0 rfl (by omega)).1
      ⟨rfl, rfl, rfl⟩
  · exact (path_of_module_spec false (fun _ => false) 2
      "module is not installed as a submodule" ⟨"MyMod", 0, 0⟩ 0 rfl (by omega)).2
      (by simp)

end MT
